import Mathlib

/-!
Verification of the quota-aware feasibility filter
(`scheduler/stack_ent.go`, `QuotaIterator`).

The Go code is shallowly embedded: the iterator's mutable fields become a
Lean structure that every method threads explicitly; Go `nil` pointers
become `Option`; side effects on the scheduling context (logger, metrics,
eligibility) become an explicit list of emitted `Event`s; a Go run-time
panic (nil-pointer dereference) becomes the `.error` branch of `Except`.
Helper types and methods of the `structs` package that are used by
`stack_ent.go` but whose bodies are not part of this repository slice
(`Resources.Add`, `QuotaLimit.Copy/AddResource/Superset`,
`QuotaSpec.LimitsMap`, `QuotaUsage.Copy`, `UpdateUsageFromPlan`) are
modelled from the specification and marked as such in their doc comments.
-/

/-- Modelled from the spec: an aggregate resource vector with the
dimensions named by the spec (CPU, memory, disk, network).  Stands in for
`structs.Resources`, whose body is outside this repository slice. -/
structure Resources where
  CPU : Int
  MemoryMB : Int
  DiskMB : Int
  MbitsNetwork : Int
deriving Repr, DecidableEq

/-- Modelled from the spec: `structs.Resources.Add`, dimension-wise sum of
two resource vectors (the Go method mutates the receiver; here the summed
value is returned). -/
def Resources.Add (r delta : Resources) : Resources :=
  { CPU := r.CPU + delta.CPU
    MemoryMB := r.MemoryMB + delta.MemoryMB
    DiskMB := r.DiskMB + delta.DiskMB
    MbitsNetwork := r.MbitsNetwork + delta.MbitsNetwork }

/-- Embeds `structs.QuotaLimit`: a numeric ceiling per resource dimension, scoped
to a region and keyed by a deterministic hash of its scoping dimensions
(spec section 3).  The hash is modelled as an opaque string key computed
from the scoping dimensions before the limit reaches this subsystem. -/
structure QuotaLimit where
  Region : String
  RegionLimit : Resources
  Hash : String
deriving Repr, DecidableEq

/-- Modelled from the spec: `structs.QuotaLimit.Copy`, a deep copy of the
limit.  In a pure value embedding a deep copy is the value itself. -/
def QuotaLimit.Copy (q : QuotaLimit) : QuotaLimit := q

/-- Modelled from the spec: `structs.QuotaLimit.AddResource` adds a
resource vector into the limit's tracked value; the scoping hash is a
function of the scoping dimensions only and is unchanged. -/
def QuotaLimit.AddResource (q : QuotaLimit) (r : Resources) : QuotaLimit :=
  { q with RegionLimit := q.RegionLimit.Add r }

/-- Modelled from the spec: `structs.QuotaLimit.Superset` (spec 4.4):
true when the receiver's bounds are greater than or equal to `other` in
every resource dimension; otherwise the names of the exceeded dimensions
are returned. -/
def QuotaLimit.Superset (q other : QuotaLimit) : Bool × List String :=
  let dims : List String :=
    (if q.RegionLimit.CPU < other.RegionLimit.CPU then ["cpu"] else []) ++
    (if q.RegionLimit.MemoryMB < other.RegionLimit.MemoryMB then ["memory"] else []) ++
    (if q.RegionLimit.DiskMB < other.RegionLimit.DiskMB then ["disk"] else []) ++
    (if q.RegionLimit.MbitsNetwork < other.RegionLimit.MbitsNetwork then ["network"] else [])
  (dims.isEmpty, dims)

/-- Embeds `structs.QuotaSpec`: a named quota with a set of quota limits. -/
structure QuotaSpec where
  Name : String
  Limits : List QuotaLimit
deriving Repr, DecidableEq

/-- Modelled from the spec: `structs.QuotaSpec.LimitsMap` builds the limit
mapping keyed by scoping hash (spec 4.2); the Go map is an association
list here. -/
def QuotaSpec.LimitsMap (q : QuotaSpec) : List (String × QuotaLimit) :=
  q.Limits.map (fun l => (l.Hash, l))

/-- Embeds `structs.QuotaUsage`: currently-consumed resources per limit hash,
keyed the same way as the limits (spec section 3). -/
structure QuotaUsage where
  Name : String
  Used : List (String × QuotaLimit)
deriving Repr, DecidableEq

/-- Modelled from the spec: `structs.QuotaUsage.Copy`, a deep copy. -/
def QuotaUsage.Copy (u : QuotaUsage) : QuotaUsage := u

/-- The namespace record: its name and the (possibly empty) name of the
quota it references. -/
structure NamespaceRec where
  Name : String
  Quota : String
deriving Repr, DecidableEq

/-- The parts of `structs.Job` this subsystem reads. -/
structure Job where
  ID : String
  Namespace : String
deriving Repr, DecidableEq

/-- A candidate node; only its identity matters to this subsystem. -/
structure Node where
  ID : String
deriving Repr, DecidableEq

/-- Task-group ephemeral disk request. -/
structure EphemeralDisk where
  SizeMB : Int
deriving Repr, DecidableEq

/-- The parts of `structs.Task` this subsystem reads (`TaskRec` because
`Task` is taken by the Lean core library). -/
structure TaskRec where
  Name : String
  Resources : Resources
deriving Repr, DecidableEq

/-- The parts of `structs.TaskGroup` this subsystem reads. -/
structure TaskGroup where
  Name : String
  EphemeralDisk : EphemeralDisk
  Tasks : List TaskRec
deriving Repr, DecidableEq

/-- An allocation of the in-flight plan, as seen by the usage projector:
its resource footprint and the limit hash it counts against. -/
structure Allocation where
  LimitHash : String
  AllocResources : Resources
deriving Repr, DecidableEq

/-- The in-flight plan: the allocations tentatively placed this cycle. -/
structure Plan where
  Allocs : List Allocation
deriving Repr, DecidableEq

/-- Modelled from the spec: `structs.UpdateUsageFromPlan` (spec 4.3)
increments, for every allocation present in the plan, the relevant limit
hash's consumed resources by that allocation's footprint. -/
def UpdateUsageFromPlan (usage : QuotaUsage) (plan : Plan) : QuotaUsage :=
  { usage with
    Used := plan.Allocs.foldl
      (fun used a =>
        used.map (fun e =>
          if e.1 = a.LimitHash then (e.1, e.2.AddResource a.AllocResources) else e))
      usage.Used }

/-- The read-only state accessor (`StateEnterprise`): each lookup returns
`(value, error)` in Go; here `Except` carries the error and the inner
`Option` distinguishes "not found" (`none`) from a present value. -/
structure StateEnterprise where
  NamespaceByName : String → Except String (Option NamespaceRec)
  QuotaSpecByName : String → Except String (Option QuotaSpec)
  QuotaUsageByName : String → Except String (Option QuotaUsage)

/-- Observable side effects on the scheduling context: error-level log
entries, `Metrics().ExhaustQuota`, and
`Eligibility().SetQuotaLimitReached`. -/
inductive Event where
  | logError (msg : String)
  | exhaustQuota (dims : List String)
  | quotaLimitReached (name : String)
deriving Repr, DecidableEq

/-- The mutable fields of `QuotaIterator`; Go `nil` is `Option.none`.
`quotaLimits` is `Option` of an association list so that a never-assigned
(nil) Go map is distinguishable from an assigned empty one. -/
structure QuotaIterator where
  buildErr : Option String := none
  combinedResources : Option Resources := none
  job : Option Job := none
  quota : Option QuotaSpec := none
  quotaLimits : Option (List (String × QuotaLimit)) := none
  actUsage : Option QuotaUsage := none
  proposedUsage : Option QuotaUsage := none
  proposedLimit : Option QuotaLimit := none
deriving Repr, DecidableEq

/-- Embeds `NewQuotaIterator`: all fields start out nil. -/
def NewQuotaIterator : QuotaIterator := {}

/-- Embeds `combinedResources`: the combined resources of a task group — the sum
of every task's resources starting from a vector holding only the group's
ephemeral disk size. -/
def combinedResources (tg : TaskGroup) : Resources :=
  tg.Tasks.foldl (fun r task => r.Add task.Resources)
    { CPU := 0, MemoryMB := 0, DiskMB := tg.EphemeralDisk.SizeMB, MbitsNetwork := 0 }

/-- Alias for the free function `combinedResources`, needed inside the
`QuotaIterator` namespace where the bare name resolves to the field. -/
def combinedResourcesOf : TaskGroup → Resources := combinedResources

/-- Embeds `QuotaIterator.SetTaskGroup`: computes and stores the combined
resource utilization of the task group. -/
def QuotaIterator.SetTaskGroup (iter : QuotaIterator) (tg : TaskGroup) : QuotaIterator :=
  { iter with combinedResources := some (combinedResourcesOf tg) }

/-- Embeds `QuotaIterator.SetJob`: resolves namespace, quota spec and quota usage
from the state accessor; every failure path records `buildErr` and emits
one error-level log entry; on full success the quota, its limit map and
the actual usage are stored.  Returns the updated iterator and the events
emitted. -/
def QuotaIterator.SetJob (iter : QuotaIterator) (state : StateEnterprise) (job : Job) :
    QuotaIterator × List Event :=
  let iter := { iter with job := some job }
  match state.NamespaceByName job.Namespace with
  | .error e =>
      let msg := "failed to lookup job " ++ job.ID ++ " namespace " ++ job.Namespace ++ ": " ++ e
      ({ iter with buildErr := some msg }, [Event.logError msg])
  | .ok none =>
      let msg := "unknown namespace " ++ job.Namespace ++ " referenced by job " ++ job.ID
      ({ iter with buildErr := some msg }, [Event.logError msg])
  | .ok (some ns) =>
    if ns.Quota = "" then
      (iter, [])
    else
      match state.QuotaSpecByName ns.Quota with
      | .error e =>
          let msg := "failed to lookup quota " ++ ns.Quota ++ ": " ++ e
          ({ iter with buildErr := some msg }, [Event.logError msg])
      | .ok none =>
          let msg := "unknown quota " ++ ns.Quota ++ " referenced by namespace " ++ ns.Name
          ({ iter with buildErr := some msg }, [Event.logError msg])
      | .ok (some quota) =>
        match state.QuotaUsageByName ns.Quota with
        | .error e =>
            let msg := "failed to lookup quota usage " ++ ns.Quota ++ ": " ++ e
            ({ iter with buildErr := some msg }, [Event.logError msg])
        | .ok none =>
            let msg := "unknown quota usage " ++ ns.Quota
            ({ iter with buildErr := some msg }, [Event.logError msg])
        | .ok (some usage) =>
          if usage.Used.isEmpty then
            (iter, [])
          else
            ({ iter with
                quota := some quota
                quotaLimits := some quota.LimitsMap
                actUsage := some usage }, [])

/-- Embeds `QuotaIterator.Next`: takes the option the upstream source yielded
and either passes it through (no quota / build error / no option),
accepts it (superset holds), or rejects it while emitting the metrics and
eligibility events.  A Go nil-pointer dereference (`Copy`/`AddResource`
on a nil proposed limit or `Superset` on a nil looked-up limit) is the
`.error` branch. -/
def QuotaIterator.Next (iter : QuotaIterator) (option : Option Node) :
    Except String (QuotaIterator × Option Node × List Event) :=
  match option, iter.quota, iter.buildErr with
  | none, _, _ => .ok (iter, none, [])
  | some opt, none, _ => .ok (iter, some opt, [])
  | some opt, some _, some _ => .ok (iter, some opt, [])
  | some opt, some quota, none =>
    match iter.proposedLimit with
    | none => .error "nil pointer dereference: proposedLimit"
    | some pl =>
      match iter.combinedResources with
      | none => .error "nil pointer dereference: combinedResources"
      | some cr =>
        let proposedLimitCopy := (pl.Copy).AddResource cr
        match (iter.quotaLimits.getD []).lookup proposedLimitCopy.Hash with
        | none => .error "nil pointer dereference: quotaLimit"
        | some quotaLimit =>
          let sd := quotaLimit.Superset proposedLimitCopy
          if sd.1 then
            .ok (iter, some opt, [])
          else
            .ok (iter, none,
              [Event.exhaustQuota sd.2, Event.quotaLimitReached quota.Name])

/-- Embeds `QuotaIterator.Reset`: forwards to upstream (no state here), then—only
when a quota applies—rebuilds the proposed usage from the actual usage and
the plan, and caches the last limit encountered while iterating the
proposed usage.  `Reset` emits no events; dereferencing a nil `actUsage`
is the `.error` branch. -/
def QuotaIterator.Reset (iter : QuotaIterator) (plan : Plan) :
    Except String (QuotaIterator × List Event) :=
  match iter.quota with
  | none => .ok (iter, [])
  | some _ =>
    match iter.actUsage with
    | none => .error "nil pointer dereference: actUsage"
    | some u =>
      let proposedUsage := UpdateUsageFromPlan u.Copy plan
      let proposedLimit :=
        proposedUsage.Used.foldl (fun _ e => some e.2) iter.proposedLimit
      .ok ({ iter with
              proposedUsage := some proposedUsage
              proposedLimit := proposedLimit }, [])

/-- An operation of the iterator's post-configuration interface: one
`Next` call (tagged with what the upstream source yields for it) or one
`Reset` call (tagged with the current plan). -/
inductive Op where
  | next (opt : Option Node)
  | reset (plan : Plan)
deriving Repr, DecidableEq

/-- Runs a sequence of `Next`/`Reset` calls, collecting the value each
`Next` returned and every event emitted, propagating a panic. -/
def runOps (iter : QuotaIterator) : List Op →
    Except String (QuotaIterator × List (Option Node) × List Event)
  | [] => .ok (iter, [], [])
  | Op.next opt :: rest =>
    match iter.Next opt with
    | .error e => .error e
    | .ok (iter1, out, evs) =>
      match runOps iter1 rest with
      | .error e => .error e
      | .ok (iter2, outs, evs2) => .ok (iter2, out :: outs, evs ++ evs2)
  | Op.reset plan :: rest =>
    match iter.Reset plan with
    | .error e => .error e
    | .ok (iter1, evs) =>
      match runOps iter1 rest with
      | .error e => .error e
      | .ok (iter2, outs, evs2) => .ok (iter2, outs, evs ++ evs2)

/-- The upstream values consumed by the `Next` calls of a sequence of
operations, in order: what a pure pass-through would return. -/
def nextInputs : List Op → List (Option Node)
  | [] => []
  | Op.next opt :: rest => opt :: nextInputs rest
  | Op.reset _ :: rest => nextInputs rest

/-! ## Helper lemmas -/

/-- When no quota was stored, `Next` passes the upstream option through
unchanged, emits nothing, and leaves the iterator untouched. -/
theorem Next_no_quota (iter : QuotaIterator) (opt : Option Node)
    (h : iter.quota = none) : iter.Next opt = .ok (iter, opt, []) := by
  cases opt <;> simp [QuotaIterator.Next, h]

/-- When no quota was stored, `Reset` only forwards to upstream: the
iterator is unchanged and nothing is emitted. -/
theorem Reset_no_quota (iter : QuotaIterator) (plan : Plan)
    (h : iter.quota = none) : iter.Reset plan = .ok (iter, []) := by
  simp [QuotaIterator.Reset, h]

/-- When no quota was stored, any sequence of `Next`/`Reset` calls is a
pure pass-through: every `Next` returns exactly its upstream value, no
event is emitted, and the iterator state never changes. -/
theorem runOps_no_quota (iter : QuotaIterator) (h : iter.quota = none) :
    ∀ ops : List Op, runOps iter ops = .ok (iter, nextInputs ops, []) := by
  intro ops
  induction ops with
  | nil => simp [runOps, nextInputs]
  | cons op rest ih =>
    cases op with
    | next opt => simp [runOps, nextInputs, Next_no_quota iter opt h, ih]
    | reset plan => simp [runOps, nextInputs, Reset_no_quota iter plan h, ih]

/-! ## C1: the two concrete CPU quota scenarios -/

/-- The quota limit of the scenarios: {CPU:1000}. -/
def c1Limit : QuotaLimit :=
  { Region := "global"
    RegionLimit := { CPU := 1000, MemoryMB := 0, DiskMB := 0, MbitsNetwork := 0 }
    Hash := "h1" }

/-- The actual-usage entry of the scenarios: {CPU:400}. -/
def c1UsedLimit : QuotaLimit :=
  { Region := "global"
    RegionLimit := { CPU := 400, MemoryMB := 0, DiskMB := 0, MbitsNetwork := 0 }
    Hash := "h1" }

/-- The quota specification of the scenarios. -/
def c1Quota : QuotaSpec := { Name := "q1", Limits := [c1Limit] }

/-- The quota usage record of the scenarios. -/
def c1Usage : QuotaUsage := { Name := "q1", Used := [("h1", c1UsedLimit)] }

/-- A state accessor resolving the scenarios' namespace, quota and usage. -/
def c1State : StateEnterprise :=
  { NamespaceByName := fun _ => .ok (some { Name := "default", Quota := "q1" })
    QuotaSpecByName := fun _ => .ok (some c1Quota)
    QuotaUsageByName := fun _ => .ok (some c1Usage) }

/-- The job of the scenarios. -/
def c1Job : Job := { ID := "job1", Namespace := "default" }

/-- The plan of the scenarios, contributing {CPU:200}. -/
def c1Plan : Plan :=
  { Allocs := [{ LimitHash := "h1"
                 AllocResources := { CPU := 200, MemoryMB := 0, DiskMB := 0, MbitsNetwork := 0 } }] }

/-- A one-task task group whose footprint is {CPU:cpu}. -/
def c1TG (cpu : Int) : TaskGroup :=
  { Name := "tg", EphemeralDisk := { SizeMB := 0 }
    Tasks := [{ Name := "t"
                Resources := { CPU := cpu, MemoryMB := 0, DiskMB := 0, MbitsNetwork := 0 } }] }

/-- The candidate node the upstream source yields. -/
def c1Node : Node := { ID := "n1" }

/-- Full pipeline of the scenarios: configure task group and job, `Reset`
(building proposed usage from the plan), then one `Next` with the upstream
candidate; returns the option `Next` produced and the events emitted. -/
def c1Run (cpu : Int) : Except String (Option Node × List Event) :=
  match ((NewQuotaIterator.SetTaskGroup (c1TG cpu)).SetJob c1State c1Job).1.Reset c1Plan with
  | .error e => .error e
  | .ok (it, _) =>
    match it.Next (some c1Node) with
    | .error e => .error e
    | .ok (_, out, evs) => .ok (out, evs)

/-- C1: with quota limit {CPU:1000}, actual usage {CPU:400}, a plan
contributing {CPU:200} and an enforcing iterator after `Reset`, `Next`
returns the upstream candidate for a footprint of {CPU:300}
(proposed-inclusive 900 ≤ 1000) and, for a footprint of {CPU:500}
(proposed-inclusive 1100 > 1000), returns no candidate and reports CPU as
the exhausted dimension to the metrics sink. -/
theorem quota_scenarios_cpu :
    c1Run 300 = .ok (some c1Node, []) ∧
    c1Run 500 = .ok (none, [Event.exhaustQuota ["cpu"], Event.quotaLimitReached "q1"]) :=
  ⟨rfl, rfl⟩

/-! ## C4: empty quota name means pure pass-through -/

/-- Characterisation of `SetJob` when the namespace resolves but carries
an empty quota name: only the `job` field is written and nothing is
emitted. -/
theorem SetJob_empty_quota (iter : QuotaIterator) (state : StateEnterprise) (job : Job)
    (ns : NamespaceRec) (hns : state.NamespaceByName job.Namespace = .ok (some ns))
    (hq : ns.Quota = "") :
    iter.SetJob state job = ({ iter with job := some job }, []) := by
  simp [QuotaIterator.SetJob, hns, hq]

/-- C4: for a job whose namespace exists but has an empty quota name,
`SetJob` records no build error and emits nothing, and for any sequence
of `Next`/`Reset` calls every `Next` returns exactly the upstream
source's value with no quota metrics or eligibility events. -/
theorem empty_quota_passthrough (state : StateEnterprise) (job : Job) (tg : TaskGroup)
    (ns : NamespaceRec) (hns : state.NamespaceByName job.Namespace = .ok (some ns))
    (hq : ns.Quota = "") :
    (((NewQuotaIterator.SetTaskGroup tg).SetJob state job).2 = [] ∧
     ((NewQuotaIterator.SetTaskGroup tg).SetJob state job).1.buildErr = none) ∧
    ∀ ops : List Op,
      runOps (((NewQuotaIterator.SetTaskGroup tg).SetJob state job).1) ops =
        .ok ((((NewQuotaIterator.SetTaskGroup tg).SetJob state job).1), nextInputs ops, []) := by
  rw [SetJob_empty_quota _ state job ns hns hq]
  refine ⟨⟨rfl, rfl⟩, ?_⟩
  intro ops
  exact runOps_no_quota _ rfl ops

/-- The namespace used by the concrete pass-through witness. -/
def c4State : StateEnterprise :=
  { NamespaceByName := fun _ => .ok (some { Name := "default", Quota := "" })
    QuotaSpecByName := fun _ => .ok none
    QuotaUsageByName := fun _ => .ok none }

/-- Job for the pass-through witness. -/
def c4Job : Job := { ID := "job4", Namespace := "default" }

/-- A concrete operation sequence exercising `Next` and `Reset`. -/
def c4Ops : List Op :=
  [Op.next (some c1Node), Op.reset c1Plan, Op.next none, Op.next (some c1Node)]

/-- Witness for C4 at a concrete state, job, task group and call
sequence. -/
theorem empty_quota_passthrough_witness :
    runOps (((NewQuotaIterator.SetTaskGroup (c1TG 9000)).SetJob c4State c4Job).1) c4Ops =
      .ok ((((NewQuotaIterator.SetTaskGroup (c1TG 9000)).SetJob c4State c4Job).1),
        nextInputs c4Ops, []) :=
  (empty_quota_passthrough c4State c4Job (c1TG 9000) { Name := "default", Quota := "" }
    rfl rfl).2 c4Ops

/-! ## C2: resolution failure means build error, one log entry, fail-open -/

/-- The ways a job's quota resolution can fail during `SetJob`: the
namespace lookup errors or finds nothing, or the namespace names a quota
whose specification or usage lookup errors or finds nothing. -/
def ResolutionFails (state : StateEnterprise) (job : Job) : Prop :=
  (∃ e, state.NamespaceByName job.Namespace = .error e) ∨
  state.NamespaceByName job.Namespace = .ok none ∨
  ∃ ns, state.NamespaceByName job.Namespace = .ok (some ns) ∧ ns.Quota ≠ "" ∧
    ((∃ e, state.QuotaSpecByName ns.Quota = .error e) ∨
     state.QuotaSpecByName ns.Quota = .ok none ∨
     (∃ e, state.QuotaUsageByName ns.Quota = .error e) ∨
     state.QuotaUsageByName ns.Quota = .ok none)

/-- On any resolution failure, `SetJob` writes exactly the `job` field and
a build error, and emits exactly one error-level log entry carrying the
same message. -/
theorem SetJob_fail (iter : QuotaIterator) (state : StateEnterprise) (job : Job)
    (h : ResolutionFails state job) :
    ∃ msg, iter.SetJob state job =
      ({ iter with job := some job, buildErr := some msg }, [Event.logError msg]) := by
  rcases h with ⟨e, he⟩ | hnone | ⟨ns, hns, hq, hrest⟩
  · exact ⟨_, by simp [QuotaIterator.SetJob, he]; rfl⟩
  · exact ⟨_, by simp [QuotaIterator.SetJob, hnone]; rfl⟩
  · rcases hrest with ⟨e, hsp⟩ | hspn | ⟨e, hus⟩ | husn
    · exact ⟨_, by simp [QuotaIterator.SetJob, hns, hq, hsp]; rfl⟩
    · exact ⟨_, by simp [QuotaIterator.SetJob, hns, hq, hspn]; rfl⟩
    · cases hsp : state.QuotaSpecByName ns.Quota with
      | error e2 => exact ⟨_, by simp [QuotaIterator.SetJob, hns, hq, hsp]; rfl⟩
      | ok o =>
        cases o with
        | none => exact ⟨_, by simp [QuotaIterator.SetJob, hns, hq, hsp]; rfl⟩
        | some q => exact ⟨_, by simp [QuotaIterator.SetJob, hns, hq, hsp, hus]; rfl⟩
    · cases hsp : state.QuotaSpecByName ns.Quota with
      | error e2 => exact ⟨_, by simp [QuotaIterator.SetJob, hns, hq, hsp]; rfl⟩
      | ok o =>
        cases o with
        | none => exact ⟨_, by simp [QuotaIterator.SetJob, hns, hq, hsp]; rfl⟩
        | some q => exact ⟨_, by simp [QuotaIterator.SetJob, hns, hq, hsp, husn]; rfl⟩

/-- C2: whenever the namespace, quota-specification or quota-usage lookup
errors or returns not-found, `SetJob` records a build error and emits one
error-level log entry, and afterwards any sequence of `Next`/`Reset`
calls is a pure pass-through: every `Next` returns exactly the upstream
value, with no metrics or eligibility events. -/
theorem resolution_failure_fail_open (state : StateEnterprise) (job : Job) (tg : TaskGroup)
    (h : ResolutionFails state job) :
    ∃ msg,
      ((NewQuotaIterator.SetTaskGroup tg).SetJob state job).1.buildErr = some msg ∧
      ((NewQuotaIterator.SetTaskGroup tg).SetJob state job).2 = [Event.logError msg] ∧
      ∀ ops : List Op,
        runOps (((NewQuotaIterator.SetTaskGroup tg).SetJob state job).1) ops =
          .ok ((((NewQuotaIterator.SetTaskGroup tg).SetJob state job).1), nextInputs ops, []) := by
  obtain ⟨msg, hmsg⟩ := SetJob_fail (NewQuotaIterator.SetTaskGroup tg) state job h
  refine ⟨msg, ?_, ?_, ?_⟩
  · rw [hmsg]
  · rw [hmsg]
  · intro ops
    rw [hmsg]
    exact runOps_no_quota _ rfl ops

/-- State accessor of the C2 witness: the namespace references quota
"q2" whose usage lookup returns not-found (scenario 5 of the spec). -/
def c2State : StateEnterprise :=
  { NamespaceByName := fun _ => .ok (some { Name := "default", Quota := "q2" })
    QuotaSpecByName := fun _ => .ok (some { Name := "q2", Limits := [c1Limit] })
    QuotaUsageByName := fun _ => .ok none }

/-- Witness for C2 at a concrete failing state and call sequence. -/
theorem resolution_failure_fail_open_witness :
    ∃ msg,
      ((NewQuotaIterator.SetTaskGroup (c1TG 1)).SetJob c2State c1Job).1.buildErr = some msg ∧
      ((NewQuotaIterator.SetTaskGroup (c1TG 1)).SetJob c2State c1Job).2 = [Event.logError msg] ∧
      ∀ ops : List Op,
        runOps (((NewQuotaIterator.SetTaskGroup (c1TG 1)).SetJob c2State c1Job).1) ops =
          .ok ((((NewQuotaIterator.SetTaskGroup (c1TG 1)).SetJob c2State c1Job).1),
            nextInputs ops, []) :=
  resolution_failure_fail_open c2State c1Job (c1TG 1)
    (Or.inr (Or.inr ⟨{ Name := "default", Quota := "q2" }, rfl, by decide,
      Or.inr (Or.inr (Or.inr rfl))⟩))

/-! ## C7: usage resolved but empty means silent pass-through -/

/-- C7: when `SetJob` resolves namespace, quota specification and quota
usage but the usage has zero limits recorded, no build error is recorded,
nothing is logged, and any sequence of `Next`/`Reset` calls is a pure
pass-through regardless of the task-group footprint. -/
theorem empty_usage_passthrough (state : StateEnterprise) (job : Job) (tg : TaskGroup)
    (ns : NamespaceRec) (q : QuotaSpec) (u : QuotaUsage)
    (hns : state.NamespaceByName job.Namespace = .ok (some ns)) (hq : ns.Quota ≠ "")
    (hsp : state.QuotaSpecByName ns.Quota = .ok (some q))
    (hus : state.QuotaUsageByName ns.Quota = .ok (some u)) (hempty : u.Used = []) :
    (((NewQuotaIterator.SetTaskGroup tg).SetJob state job).2 = [] ∧
     ((NewQuotaIterator.SetTaskGroup tg).SetJob state job).1.buildErr = none ∧
     ((NewQuotaIterator.SetTaskGroup tg).SetJob state job).1.quota = none) ∧
    ∀ ops : List Op,
      runOps (((NewQuotaIterator.SetTaskGroup tg).SetJob state job).1) ops =
        .ok ((((NewQuotaIterator.SetTaskGroup tg).SetJob state job).1), nextInputs ops, []) := by
  have hset : (NewQuotaIterator.SetTaskGroup tg).SetJob state job =
      ({ NewQuotaIterator.SetTaskGroup tg with job := some job }, []) := by
    simp [QuotaIterator.SetJob, hns, hq, hsp, hus, hempty]
  rw [hset]
  exact ⟨⟨rfl, rfl, rfl⟩, fun ops => runOps_no_quota _ rfl ops⟩

/-- State accessor of the C7 witness: lookups succeed but the usage
record has zero limits. -/
def c7State : StateEnterprise :=
  { NamespaceByName := fun _ => .ok (some { Name := "default", Quota := "q7" })
    QuotaSpecByName := fun _ => .ok (some { Name := "q7", Limits := [c1Limit] })
    QuotaUsageByName := fun _ => .ok (some { Name := "q7", Used := [] }) }

/-- Witness for C7 at a concrete state with an oversized footprint. -/
theorem empty_usage_passthrough_witness :
    runOps (((NewQuotaIterator.SetTaskGroup (c1TG 9999)).SetJob c7State c1Job).1) c4Ops =
      .ok ((((NewQuotaIterator.SetTaskGroup (c1TG 9999)).SetJob c7State c1Job).1),
        nextInputs c4Ops, []) :=
  (empty_usage_passthrough c7State c1Job (c1TG 9999) { Name := "default", Quota := "q7" }
    { Name := "q7", Limits := [c1Limit] } { Name := "q7", Used := [] }
    rfl (by decide) rfl rfl rfl).2 c4Ops

/-! ## C5: Next never mutates the iterator's stored state -/

/-- Every successful `Next` returns the iterator state it was given:
the Go method writes no field, it only reads and works on a local copy. -/
theorem Next_preserves_state (iter : QuotaIterator) (opt : Option Node)
    (r : QuotaIterator × Option Node × List Event) (h : iter.Next opt = .ok r) :
    r.1 = iter := by
  unfold QuotaIterator.Next at h
  repeat' split at h
  all_goals try dsimp only at h
  all_goals try split at h
  all_goals try split at h
  all_goals first
    | (injection h with h; subst h; rfl)
    | injection h

/-- C5: `Next` never mutates the stored `proposedLimit`, `proposedUsage`,
`actUsage` or `combinedResources` — after any successful `Next` call
(accepting or rejecting), those fields are unchanged and a subsequent
`Next` call therefore evaluates its candidate against the exact same
values. -/
theorem next_no_mutation (iter : QuotaIterator) (opt : Option Node)
    (r : QuotaIterator × Option Node × List Event) (h : iter.Next opt = .ok r) :
    r.1.proposedLimit = iter.proposedLimit ∧
    r.1.proposedUsage = iter.proposedUsage ∧
    r.1.actUsage = iter.actUsage ∧
    r.1.combinedResources = iter.combinedResources ∧
    ∀ opt2 : Option Node, r.1.Next opt2 = iter.Next opt2 := by
  have hst := Next_preserves_state iter opt r h
  rw [hst]
  exact ⟨rfl, rfl, rfl, rfl, fun _ => rfl⟩

/-- The enforcing iterator used by the concrete witnesses: the C1
pipeline after configuration and one `Reset`, with the rejecting
footprint {CPU:500}. -/
def c5Iter : QuotaIterator :=
  match ((NewQuotaIterator.SetTaskGroup (c1TG 500)).SetJob c1State c1Job).1.Reset c1Plan with
  | .error _ => NewQuotaIterator
  | .ok (it, _) => it

/-- Witness for C5: the enforcing iterator rejects the candidate yet its
stored quota state is untouched. -/
theorem next_no_mutation_witness :
    c5Iter.proposedLimit = c5Iter.proposedLimit ∧
    c5Iter.proposedUsage = c5Iter.proposedUsage ∧
    c5Iter.actUsage = c5Iter.actUsage ∧
    c5Iter.combinedResources = c5Iter.combinedResources ∧
    ∀ opt2 : Option Node, c5Iter.Next opt2 = c5Iter.Next opt2 :=
  next_no_mutation c5Iter (some c1Node)
    (c5Iter, none, [Event.exhaustQuota ["cpu"], Event.quotaLimitReached "q1"]) rfl

/-! ## C6: Reset is idempotent for a fixed plan -/

/-- Iterating a map while assigning every entry to one cell keeps the
last entry, or the initial value when the map is empty — the selection
`Reset` performs on the proposed usage's limits. -/
theorem foldl_pick_last (l : List (String × QuotaLimit)) (a : Option QuotaLimit) :
    l.foldl (fun _ e => some e.2) a =
      (match l.getLast? with
       | none => a
       | some e => some e.2) := by
  induction l generalizing a with
  | nil => rfl
  | cons x xs ih =>
    rw [List.foldl_cons, ih (some x.2)]
    cases xs with
    | nil => rfl
    | cons y ys => rfl

/-- Re-running the limit selection on the same map is a no-op. -/
theorem foldl_pick_last_idem (l : List (String × QuotaLimit)) (a : Option QuotaLimit) :
    l.foldl (fun _ e => some e.2) (l.foldl (fun _ e => some e.2) a) =
    l.foldl (fun _ e => some e.2) a := by
  rw [foldl_pick_last l (l.foldl (fun _ e => some e.2) a), foldl_pick_last l a]
  cases l.getLast? <;> rfl

/-- C6: for an enforcing iterator, a second `Reset` with the same plan
reproduces the same iterator state — in particular the same proposed
usage and proposed limit — so the same upstream candidate sequence gets
the same accept/reject outcomes; `Reset` also emits nothing. -/
theorem reset_idempotent (iter : QuotaIterator) (plan : Plan) (hq : iter.quota.isSome)
    (it1 : QuotaIterator) (evs : List Event) (h : iter.Reset plan = .ok (it1, evs)) :
    evs = [] ∧ it1.Reset plan = .ok (it1, []) := by
  cases hquota : iter.quota with
  | none => rw [hquota] at hq; exact absurd hq (by simp)
  | some q =>
    cases hact : iter.actUsage with
    | none =>
      rw [QuotaIterator.Reset, hquota, hact] at h
      exact absurd h (by simp)
    | some u =>
      rw [QuotaIterator.Reset, hquota, hact] at h
      rw [Except.ok.injEq, Prod.mk.injEq] at h
      obtain ⟨h1, h2⟩ := h
      subst h2
      refine ⟨rfl, ?_⟩
      rw [QuotaIterator.Reset]
      rw [← h1]
      simp only [hquota, hact]
      rw [foldl_pick_last_idem]

/-- The configured (pre-`Reset`) enforcing iterator of the concrete
pipeline with footprint {CPU:500}. -/
def c5Config : QuotaIterator :=
  ((NewQuotaIterator.SetTaskGroup (c1TG 500)).SetJob c1State c1Job).1

/-- Witness for C6 on the concrete enforcing pipeline. -/
theorem reset_idempotent_witness :
    ([] : List Event) = [] ∧ c5Iter.Reset c1Plan = .ok (c5Iter, []) :=
  reset_idempotent c5Config c1Plan rfl c5Iter [] rfl

/-! ## C3: what Reset actually does when zero or several limits match -/

/-- A second limit, scoped to a different hash, for the two-limit
counterexample. -/
def c3Limit2 : QuotaLimit :=
  { Region := "east"
    RegionLimit := { CPU := 700, MemoryMB := 0, DiskMB := 0, MbitsNetwork := 0 }
    Hash := "h2" }

/-- A usage record in which two limits match the job's scope. -/
def c3Usage : QuotaUsage := { Name := "q3", Used := [("h1", c1UsedLimit), ("h2", c3Limit2)] }

/-- State accessor resolving a quota with two limits and a usage carrying
two entries. -/
def c3State : StateEnterprise :=
  { NamespaceByName := fun _ => .ok (some { Name := "default", Quota := "q3" })
    QuotaSpecByName := fun _ => .ok (some { Name := "q3", Limits := [c1Limit, c3Limit2] })
    QuotaUsageByName := fun _ => .ok (some c3Usage) }

/-- The configured iterator whose proposed usage will carry two limits. -/
def c3Config : QuotaIterator :=
  ((NewQuotaIterator.SetTaskGroup (c1TG 1)).SetJob c3State c1Job).1

/-- C3 counterexample: with more than one matching limit after
projection, `Reset` neither logs nor disables enforcement — it emits no
event, keeps the quota (enforcement stays active) and silently caches
the last limit encountered, here the second one. -/
theorem reset_multi_limit_not_internal_error :
    (c3Config.Reset { Allocs := [] }).map
        (fun r => (r.2, r.1.quota.isSome, r.1.buildErr, r.1.proposedLimit)) =
      .ok ([], true, none, some c3Limit2) := rfl

/-- C3 amended: `Reset` performs no zero/multiple-limit detection at
all — it never emits an event, never changes the stored quota or build
error, and caches as the applicable limit the last entry encountered
while iterating the proposed usage, keeping the previously cached limit
when the proposed usage has no entries. -/
theorem reset_no_invariant_check (iter : QuotaIterator) (plan : Plan)
    (it1 : QuotaIterator) (evs : List Event) (h : iter.Reset plan = .ok (it1, evs)) :
    evs = [] ∧ it1.quota = iter.quota ∧ it1.buildErr = iter.buildErr ∧
    (iter.quota = none → it1 = iter) ∧
    ∀ u, iter.actUsage = some u → iter.quota.isSome →
      ((UpdateUsageFromPlan u.Copy plan).Used = [] →
        it1.proposedLimit = iter.proposedLimit) ∧
      ∀ e, (UpdateUsageFromPlan u.Copy plan).Used.getLast? = some e →
        it1.proposedLimit = some e.2 := by
  cases hquota : iter.quota with
  | none =>
    rw [QuotaIterator.Reset, hquota] at h
    rw [Except.ok.injEq, Prod.mk.injEq] at h
    obtain ⟨h1, h2⟩ := h
    subst h2
    refine ⟨rfl, ?_, ?_, fun _ => h1.symm, ?_⟩
    · rw [← h1]; exact hquota
    · rw [← h1]
    · intro u hu hq
      exact absurd hq (by simp)
  | some q =>
    cases hact : iter.actUsage with
    | none =>
      rw [QuotaIterator.Reset, hquota, hact] at h
      exact absurd h (by simp)
    | some u =>
      rw [QuotaIterator.Reset, hquota, hact] at h
      rw [Except.ok.injEq, Prod.mk.injEq] at h
      obtain ⟨h1, h2⟩ := h
      subst h2
      have hpl : it1.proposedLimit =
          List.foldl (fun _ e => some e.2) iter.proposedLimit
            (UpdateUsageFromPlan u.Copy plan).Used := by rw [← h1]
      refine ⟨rfl, ?_, ?_, ?_, ?_⟩
      · rw [← h1]
      · rw [← h1]
      · intro habs; exact absurd habs (by simp)
      · intro u2 hu2 _
        rw [Option.some.injEq] at hu2
        subst hu2
        constructor
        · intro hempty
          rw [hpl, hempty]
          rfl
        · intro e hlast
          rw [hpl, foldl_pick_last, hlast]

/-- The iterator produced by `Reset` on the two-limit configuration. -/
def c3After : QuotaIterator :=
  match c3Config.Reset { Allocs := [] } with
  | .error _ => NewQuotaIterator
  | .ok (it, _) => it

/-- Witness for the amended C3 statement on the two-limit
configuration: quota and build error survive `Reset` and the cached
limit is the last used entry. -/
theorem reset_no_invariant_check_witness :
    c3After.quota = c3Config.quota ∧ c3After.buildErr = c3Config.buildErr ∧
    c3After.proposedLimit = some c3Limit2 :=
  have hh := reset_no_invariant_check c3Config { Allocs := [] } c3After [] rfl
  ⟨hh.2.1, hh.2.2.1, (hh.2.2.2.2 c3Usage rfl rfl).2 ("h2", c3Limit2) rfl⟩

/-! ## C8: the resource aggregator -/

/-- Summing task resources with `Resources.Add` accumulates every
dimension independently. -/
theorem foldl_Add_fields (l : List TaskRec) (init : Resources) :
    (l.foldl (fun r task => r.Add task.Resources) init).CPU =
      init.CPU + (l.map (fun t => t.Resources.CPU)).sum ∧
    (l.foldl (fun r task => r.Add task.Resources) init).MemoryMB =
      init.MemoryMB + (l.map (fun t => t.Resources.MemoryMB)).sum ∧
    (l.foldl (fun r task => r.Add task.Resources) init).DiskMB =
      init.DiskMB + (l.map (fun t => t.Resources.DiskMB)).sum ∧
    (l.foldl (fun r task => r.Add task.Resources) init).MbitsNetwork =
      init.MbitsNetwork + (l.map (fun t => t.Resources.MbitsNetwork)).sum := by
  induction l generalizing init with
  | nil => simp
  | cons t ts ih =>
    obtain ⟨h1, h2, h3, h4⟩ := ih (init.Add t.Resources)
    refine ⟨?_, ?_, ?_, ?_⟩
    · rw [List.foldl_cons, h1]; simp [Resources.Add, add_assoc]
    · rw [List.foldl_cons, h2]; simp [Resources.Add, add_assoc]
    · rw [List.foldl_cons, h3]; simp [Resources.Add, add_assoc]
    · rw [List.foldl_cons, h4]; simp [Resources.Add, add_assoc]

/-- C8: `SetTaskGroup` stores the aggregate of `combinedResources` and
changes nothing else; the aggregate equals the dimension-wise sum of all
task resource requests, plus the group's ephemeral disk size in the disk
dimension.  The function is total and emits no event. -/
theorem combined_resources_aggregate (iter : QuotaIterator) (tg : TaskGroup) :
    iter.SetTaskGroup tg = { iter with combinedResources := some (combinedResources tg) } ∧
    (combinedResources tg).CPU = (tg.Tasks.map (fun t => t.Resources.CPU)).sum ∧
    (combinedResources tg).MemoryMB = (tg.Tasks.map (fun t => t.Resources.MemoryMB)).sum ∧
    (combinedResources tg).DiskMB =
      tg.EphemeralDisk.SizeMB + (tg.Tasks.map (fun t => t.Resources.DiskMB)).sum ∧
    (combinedResources tg).MbitsNetwork =
      (tg.Tasks.map (fun t => t.Resources.MbitsNetwork)).sum := by
  obtain ⟨h1, h2, h3, h4⟩ :=
    foldl_Add_fields tg.Tasks
      { CPU := 0, MemoryMB := 0, DiskMB := tg.EphemeralDisk.SizeMB, MbitsNetwork := 0 }
  exact ⟨rfl, by simpa [combinedResources] using h1, by simpa [combinedResources] using h2,
    by simpa [combinedResources] using h3, by simpa [combinedResources] using h4⟩

/-! ## C9: enforcing Next without a usable proposed limit panics -/

/-- C9: for an enforcing iterator (quota stored, no build error) given an
upstream candidate, `Next` hits a nil-pointer dereference — rather than
failing open — when no `Reset` has set the proposed limit, or when the
limit map has no entry under the copied proposed limit's hash. -/
theorem next_nil_dereference (iter : QuotaIterator) (n : Node)
    (hq : iter.quota.isSome) (hb : iter.buildErr = none)
    (h : iter.proposedLimit = none ∨
      ∃ pl, iter.proposedLimit = some pl ∧
        (iter.quotaLimits.getD []).lookup pl.Hash = none) :
    ∃ e, iter.Next (some n) = .error e := by
  obtain ⟨q, hq2⟩ := Option.isSome_iff_exists.mp hq
  rcases h with hpl | ⟨pl, hpl, hlk⟩
  · exact ⟨"nil pointer dereference: proposedLimit",
      by simp [QuotaIterator.Next, hq2, hb, hpl]⟩
  · cases hcr : iter.combinedResources with
    | none =>
      exact ⟨"nil pointer dereference: combinedResources",
        by simp [QuotaIterator.Next, hq2, hb, hpl, hcr]⟩
    | some cr =>
      exact ⟨"nil pointer dereference: quotaLimit",
        by simp [QuotaIterator.Next, hq2, hb, hpl, hcr,
          QuotaLimit.Copy, QuotaLimit.AddResource, hlk]⟩

/-- Witness for C9: the concrete configured iterator, before any `Reset`,
panics on `Next`. -/
theorem next_nil_dereference_witness :
    ∃ e, c5Config.Next (some c1Node) = .error e :=
  next_nil_dereference c5Config c1Node rfl rfl (Or.inl rfl)

/-! ## C10: SetJob leaves an all-or-nothing iterator state -/

/-- C10: starting from a pristine iterator, after `SetJob` a recorded
build error implies `quota`, `quotaLimits` and `actUsage` are all nil,
and `quota` is set if and only if `quotaLimits` and `actUsage` are both
set — so enforcement is active exactly when all three are present and the
`buildErr` check in `Next` is subsumed by the `quota` nil-check. -/
theorem setjob_all_or_nothing (state : StateEnterprise) (job : Job) (iter0 : QuotaIterator)
    (h1 : iter0.buildErr = none) (h2 : iter0.quota = none)
    (h3 : iter0.quotaLimits = none) (h4 : iter0.actUsage = none) :
    ((iter0.SetJob state job).1.buildErr.isSome →
      (iter0.SetJob state job).1.quota = none ∧
      (iter0.SetJob state job).1.quotaLimits = none ∧
      (iter0.SetJob state job).1.actUsage = none) ∧
    ((iter0.SetJob state job).1.quota.isSome ↔
      (iter0.SetJob state job).1.quotaLimits.isSome ∧
      (iter0.SetJob state job).1.actUsage.isSome) := by
  cases hns : state.NamespaceByName job.Namespace with
  | error e => simp [QuotaIterator.SetJob, hns, h2, h3, h4]
  | ok o =>
    cases o with
    | none => simp [QuotaIterator.SetJob, hns, h2, h3, h4]
    | some ns =>
      by_cases hq : ns.Quota = ""
      · simp [QuotaIterator.SetJob, hns, hq, h1, h2, h3, h4]
      · cases hsp : state.QuotaSpecByName ns.Quota with
        | error e => simp [QuotaIterator.SetJob, hns, hq, hsp, h2, h3, h4]
        | ok o2 =>
          cases o2 with
          | none => simp [QuotaIterator.SetJob, hns, hq, hsp, h2, h3, h4]
          | some q =>
            cases hus : state.QuotaUsageByName ns.Quota with
            | error e => simp [QuotaIterator.SetJob, hns, hq, hsp, hus, h2, h3, h4]
            | ok o3 =>
              cases o3 with
              | none => simp [QuotaIterator.SetJob, hns, hq, hsp, hus, h2, h3, h4]
              | some u =>
                by_cases he : u.Used.isEmpty
                · simp [QuotaIterator.SetJob, hns, hq, hsp, hus, he, h1, h2, h3, h4]
                · simp [QuotaIterator.SetJob, hns, hq, hsp, hus, he, h1]

/-- Witness for C10 on the concrete resolving state. -/
theorem setjob_all_or_nothing_witness :
    (NewQuotaIterator.SetJob c1State c1Job).1.quota.isSome ↔
      (NewQuotaIterator.SetJob c1State c1Job).1.quotaLimits.isSome ∧
      (NewQuotaIterator.SetJob c1State c1Job).1.actUsage.isSome :=
  (setjob_all_or_nothing c1State c1Job NewQuotaIterator rfl rfl rfl rfl).2
